import Mathlib

/-!
Verification of the RSS aggregation server (src/server.js).

The JavaScript program is shallowly embedded: each function of the source
becomes a Lean definition over explicit data.  Network fetches and the
external `rss-parser` are external collaborators, so a per-source fetch is
modelled by its outcome: either an error or the list of parsed upstream
entries.  JavaScript strings are modelled by `String`; fields that the
source only ever consumes through truthiness tests (`||`) are modelled as
plain strings where the empty string stands for both `undefined` and `''`
(the two are indistinguishable to `||`).  `item.title` is kept as
`Option String` because the source calls `.toLowerCase()` on it, which
throws on `undefined` but not on `''`.  Timestamps are natural numbers
(milliseconds since the epoch); `new Date(x || 0)` on an absent date is
`Option.getD 0`.  Code that can throw is embedded in `Except String`.
-/

/-- A configured feed source (entries of `RSS_SOURCES` in src/server.js). -/
structure Source where
  name : String
  url : String
  category : String
deriving DecidableEq, Repr

/-- An upstream entry as delivered by the external `rss-parser`
collaborator.  `title` is optional (the source dereferences it with
`.toLowerCase()`, which throws on `undefined`); the other text fields are
only consumed through `||`, for which absent and empty are equivalent, so
they are plain strings with `""` standing for absent.  Dates are parsed
timestamps. -/
structure Entry where
  title : Option String
  link : String
  pubDate : Option Nat
  isoDate : Option Nat
  content : String
  contentSnippet : String
  guid : String
deriving DecidableEq, Repr

/-- A normalized item, the element shape produced by `fetchFeed`. -/
structure Item where
  title : Option String
  link : String
  pubDate : Option Nat
  description : String
  source : String
  category : String
  guid : String
deriving DecidableEq, Repr

/-- The static source registry `RSS_SOURCES` of src/server.js. -/
def RSS_SOURCES : List Source :=
  [ { name := "Harvard Business Review",
      url := "http://feeds.harvardbusiness.org/harvardbusiness?format=xml",
      category := "Business Strategy" },
    { name := "CNBC",
      url := "https://www.cnbc.com/id/100003114/device/rss/rss.html",
      category := "Markets & Business" },
    { name := "Financial Times",
      url := "https://www.ft.com/rss/home",
      category := "Global Finance" },
    { name := "Bloomberg",
      url := "https://feeds.bloomberg.com/markets/news.rss",
      category := "Markets" } ]

/-- The item constructed for one upstream entry inside `fetchFeed`
(src/server.js lines 53-61): `pubDate: item.pubDate || item.isoDate`,
`description: item.contentSnippet || item.content || ''`,
`guid: item.guid || item.link`. -/
def mkItem (src : Source) (e : Entry) : Item :=
  { title := e.title
    link := e.link
    pubDate := match e.pubDate with
      | some t => some t
      | none => e.isoDate
    description := if e.contentSnippet ≠ "" then e.contentSnippet
      else if e.content ≠ "" then e.content else ""
    source := src.name
    category := src.category
    guid := if e.guid ≠ "" then e.guid else e.link }

/-- `fetchFeed` (src/server.js lines 48-66): on success it maps the parsed
entries to normalized items; any error is caught locally and yields the
empty list. -/
def fetchFeed (src : Source) (outcome : Except String (List Entry)) : List Item :=
  match outcome with
  | Except.ok entries => entries.map (mkItem src)
  | Except.error _ => []

/-- The numeric sort key of the comparator in src/server.js lines 88-92:
`new Date(a.pubDate || 0)`, an absent date counting as epoch 0. -/
def sortTS (it : Item) : Nat := it.pubDate.getD 0

/-- Insertion step of the stable descending sort modelling
`allItems.sort((a, b) => dateB - dateA)` (src/server.js lines 88-92).
An element is placed before the first strictly older element, so items
with equal keys keep their original relative order, as the ECMAScript
stable sort does. -/
def insertDesc (x : Item) : List Item → List Item
  | [] => [x]
  | y :: ys => if sortTS y ≤ sortTS x then x :: y :: ys else y :: insertDesc x ys

/-- Stable sort by publication timestamp, newest first (src/server.js
lines 88-92). -/
def sortDesc : List Item → List Item
  | [] => []
  | x :: xs => insertDesc x (sortDesc xs)

/-- Character-wise model of JavaScript `String.prototype.toLowerCase`. -/
def jsToLower (s : String) : String := String.mk (s.data.map Char.toLower)

/-- A character matched by the regex class `\w`: ASCII letter, digit, or
underscore. -/
def isWordChar (c : Char) : Bool := c.isAlpha || c.isDigit || c == '_'

/-- A character matched by the regex class `\s` (the ASCII part). -/
def isSpaceChar (c : Char) : Bool :=
  c == ' ' || c == '\t' || c == '\n' || c == '\r' || c == '\x0b' || c == '\x0c'

/-- The dedup key of src/server.js line 99:
`item.title.toLowerCase().replace(/[^\w\s]/g, '')` — lower-case, then
delete every character outside `\w` and `\s`. -/
def normalizeTitle (t : String) : String :=
  String.mk ((jsToLower t).data.filter (fun c => isWordChar c || isSpaceChar c))

/-- The dedup key of an item, reading an absent title as `""` (only used
on items whose title is present; `dedupE` throws before keying an absent
title, mirroring the `undefined.toLowerCase()` TypeError). -/
def keyStr (it : Item) : String := normalizeTitle (it.title.getD "")

/-- Membership test of the `seenTitles` set (src/server.js line 100),
with the set modelled as the list of keys added so far. -/
def seenHas (seen : List String) (k : String) : Bool :=
  match seen with
  | [] => false
  | s :: rest => k == s || seenHas rest k

/-- The dedup walk of src/server.js lines 95-104: keep the first item of
each normalized-title key.  `item.title.toLowerCase()` throws a TypeError
when the title is `undefined`, so the walk is embedded in `Except`. -/
def dedupE : List Item → List String → Except String (List Item)
  | [], _ => Except.ok []
  | it :: rest, seen =>
    match it.title with
    | none => Except.error "TypeError"
    | some t =>
      let k := normalizeTitle t
      if seenHas seen k then dedupE rest seen
      else match dedupE rest (k :: seen) with
        | Except.ok u => Except.ok (it :: u)
        | Except.error e => Except.error e

/-- The merged working sequence of src/server.js lines 78-85: the
concatenation, in source-list order, of each source's `fetchFeed` result
(every promise is fulfilled because `fetchFeed` catches its own errors). -/
def allItems : List (Source × Except String (List Entry)) → List Item
  | [] => []
  | p :: rest => fetchFeed p.1 p.2 ++ allItems rest

/-- The body of the `try` block of `combinedRSSFeed` (src/server.js lines
70-107): merge, sort, deduplicate, truncate to 100. -/
def bodyE (fetches : List (Source × Except String (List Entry))) :
    Except String (List Item) :=
  match dedupE (sortDesc (allItems fetches)) [] with
  | Except.ok u => Except.ok (u.take 100)
  | Except.error e => Except.error e

/-- `combinedRSSFeed` with its `catch` (src/server.js lines 109-112): any
exception escaping the body is converted to the empty list, so the
function always resolves. -/
def combinedRSSFeedE (fetches : List (Source × Except String (List Entry))) :
    Except String (List Item) :=
  match bodyE fetches with
  | Except.ok l => Except.ok l
  | Except.error _ => Except.ok []

/-- The item list produced by one aggregation run of `combinedRSSFeed`. -/
def combinedRSSFeed (fetches : List (Source × Except String (List Entry))) :
    List Item :=
  match combinedRSSFeedE fetches with
  | Except.ok l => l
  | Except.error _ => []

/-- One global single-character replacement, the character-level meaning of
`str.replace(/c/g, r)` for a single character `c`. -/
def replaceAll (c : Char) (r : List Char) : List Char → List Char
  | [] => []
  | x :: xs => (if x = c then r else [x]) ++ replaceAll c r xs

/-- The five chained global replacements of `escapeXML` (src/server.js
lines 152-157), applied in source order: `&` first, then `<`, `>`, `"`,
and the apostrophe. -/
def escChars (l : List Char) : List Char :=
  replaceAll '\'' "&#39;".data
    (replaceAll '"' "&quot;".data
      (replaceAll '>' "&gt;".data
        (replaceAll '<' "&lt;".data
          (replaceAll '&' "&amp;".data l))))

/-- `escapeXML` (src/server.js lines 150-158).  The `if (!str) return ''`
guard maps a falsy argument to the empty string. -/
def escapeXML (s : String) : String :=
  if s = "" then "" else String.mk (escChars s.data)

/-- Model of JavaScript `String.prototype.substring(0, n)`: the first `n`
characters. -/
def jsSubstring (s : String) (n : Nat) : String := String.mk (s.data.take n)

/-- The description expression of src/server.js line 121:
`escapeXML(item.description.substring(0, 500) +
(item.description.length > 500 ? '...' : ''))`. -/
def renderDescription (d : String) : String :=
  escapeXML (jsSubstring d 500 ++ (if d.length > 500 then "..." else ""))

/-- Opaque model of the external `Date.prototype.toUTCString` formatter:
an injective rendering of the timestamp.  No claim depends on the concrete
date format. -/
def toUTCString (t : Nat) : String := toString t

/-- The per-item markup of `generateRSSXML` (src/server.js lines 119-133).
`fmt` models the external date formatter and `nowStr` the pre-rendered
generation time used when `item.pubDate` is absent. -/
def itemXML (fmt : Nat → String) (nowStr : String) (it : Item) : String :=
  "\n    <item>\n      <title>" ++ escapeXML (it.title.getD "") ++
  "</title>\n      <link>" ++ escapeXML it.link ++
  "</link>\n      <description>" ++ renderDescription it.description ++
  "</description>\n      <pubDate>" ++
  (match it.pubDate with
   | some t => fmt t
   | none => nowStr) ++
  "</pubDate>\n      <source>" ++ escapeXML it.source ++
  "</source>\n      <category>" ++ escapeXML it.category ++
  "</category>\n      <guid>" ++ escapeXML it.guid ++
  "</guid>\n    </item>"

/-- `generateRSSXML` (src/server.js lines 116-147), parameterized by the
external date formatter and the generation timestamp `now`. -/
def generateRSSXML (fmt : Nat → String) (now : Nat) (items : List Item) : String :=
  let nowStr := fmt now
  let rssItems := String.join (items.map (itemXML fmt nowStr))
  "<?xml version=\"1.0\" encoding=\"UTF-8\"?>\n<rss version=\"2.0\">\n  <channel>\n    <title>Financial News Hub - Combined Feed</title>\n    <link>https://your-domain.com/rss</link>\n    <description>Combined RSS feed from Harvard Business Review, Wall Street Journal, CNBC, Financial Times, and Bloomberg</description>\n    <language>en-us</language>\n    <lastBuildDate>" ++
  nowStr ++ "</lastBuildDate>\n    <ttl>15</ttl>\n    " ++ rssItems ++
  "\n  </channel>\n</rss>"

/-- `CACHE_DURATION` (src/server.js line 45): 15 minutes in milliseconds. -/
def CACHE_DURATION : Nat := 15 * 60 * 1000

/-- The process-wide cache globals `cachedFeed` and `lastUpdate`
(src/server.js lines 43-44), both `null` at startup. -/
structure CacheState where
  cachedFeed : Option String
  lastUpdate : Option Nat
deriving DecidableEq, Repr

/-- `updateCache` (src/server.js lines 161-167): run the aggregation,
render it, and overwrite both cache globals.  The previous state is
ignored — the entry is replaced wholesale. -/
def updateCache (fmt : Nat → String) (now : Nat)
    (fetches : List (Source × Except String (List Entry)))
    (_st : CacheState) : CacheState :=
  { cachedFeed := some (generateRSSXML fmt now (combinedRSSFeed fetches))
    lastUpdate := some now }

/-- The staleness test of src/server.js line 185:
`!cachedFeed || !lastUpdate || (Date.now() - lastUpdate.getTime()) > CACHE_DURATION`.
A missing or empty `cachedFeed` is falsy. -/
def needsRefresh (now : Nat) (st : CacheState) : Bool :=
  (st.cachedFeed.getD "" == "") || st.lastUpdate.isNone ||
    decide (now - st.lastUpdate.getD 0 > CACHE_DURATION)

/-- The `GET /rss` handler (src/server.js lines 182-195): refresh the
cache when stale, then serve the cached XML.  The result carries the
response body, the new cache state, and the number of refreshes run. -/
def rssHandler (fmt : Nat → String) (now : Nat)
    (fetches : List (Source × Except String (List Entry)))
    (st : CacheState) : String × CacheState × Nat :=
  if needsRefresh now st then
    let st2 := updateCache fmt now fetches st
    (st2.cachedFeed.getD "", st2, 1)
  else
    (st.cachedFeed.getD "", st, 0)

/-- The success payload of `GET /json` (src/server.js lines 200-206). -/
structure JsonFeedResponse where
  title : String
  description : String
  items : List Item
  lastUpdated : String
  sources : List String
deriving DecidableEq, Repr

/-- The `GET /json` handler (src/server.js lines 197-211): a fresh
aggregation inside `try`, with the `catch` branch answering HTTP 500. -/
def jsonHandler (nowStr : String)
    (fetches : List (Source × Except String (List Entry))) :
    Except String JsonFeedResponse :=
  match combinedRSSFeedE fetches with
  | Except.ok items =>
      Except.ok
        { title := "Financial News Hub - Combined Feed"
          description := "Combined feed from top financial news sources"
          items := items
          lastUpdated := nowStr
          sources := RSS_SOURCES.map (fun s => s.name) }
  | Except.error _ => Except.error "Failed to generate JSON feed"

/-- The dedup key exactly as claim C1 words it: lower-case the title and
remove every character that is not a letter, digit, or whitespace. -/
def specKeyClaimed (t : String) : String :=
  String.mk ((jsToLower t).data.filter (fun c => c.isAlpha || c.isDigit || isSpaceChar c))

/-- The dedup key as the counterexample forces it to be amended: the code
also keeps underscores (`\w` is letter, digit, or underscore). -/
def specKeyAmended (t : String) : String :=
  String.mk
    ((jsToLower t).data.filter
      (fun c => c.isAlpha || c.isDigit || c == '_' || isSpaceChar c))

/-- Deduplication as the spec words it: keep each list head and drop every
later item with the same key. -/
def dedupSpecOk : List Item → List Item
  | [] => []
  | x :: xs => x :: dedupSpecOk (xs.filter (fun y => !(keyStr y == keyStr x)))
termination_by l => l.length
decreasing_by
  simp only [List.length_cons]
  exact Nat.lt_succ_of_le (List.length_filter_le _ _)

/-- Character-wise escaping as claim C7 words it: each of the five
reserved characters is replaced by its escape sequence, every other
character is kept. -/
def escSeqL (c : Char) : List Char :=
  if c = '&' then "&amp;".data
  else if c = '<' then "&lt;".data
  else if c = '>' then "&gt;".data
  else if c = '"' then "&quot;".data
  else if c = '\'' then "&#39;".data
  else [c]

/-- The spec-side escaping map: every character replaced independently. -/
def escSpec : List Char → List Char
  | [] => []
  | c :: cs => escSeqL c ++ escSpec cs

/-- A concrete source used by the concrete evaluation theorems. -/
def src0 : Source :=
  { name := "CNBC", url := "https://example.com/rss", category := "Markets" }

/-- Two concrete items whose titles differ but share one normalized key. -/
def itA : Item :=
  { title := some "Fed Raises Rates", link := "https://a.example/1",
    pubDate := some 200, description := "a", source := "CNBC",
    category := "Markets", guid := "g1" }

/-- Second concrete item, same normalized-title key as `itA`. -/
def itB : Item :=
  { title := some "fed raises rates!!", link := "https://b.example/2",
    pubDate := some 100, description := "b", source := "CNBC",
    category := "Markets", guid := "g2" }

/-- A concrete upstream entry with no identifier and no link. -/
def badEntry : Entry :=
  { title := some "x", link := "", pubDate := some 7, isoDate := none,
    content := "", contentSnippet := "c", guid := "" }

/-- A concrete upstream entry with no identifier but a non-empty link. -/
def goodEntry : Entry :=
  { title := some "y", link := "https://g.example/3", pubDate := some 8,
    isoDate := none, content := "", contentSnippet := "c", guid := "" }

/-- A concrete upstream entry with no title: normalizing its key throws. -/
def entryNoTitle : Entry :=
  { title := none, link := "https://n.example/4", pubDate := some 9,
    isoDate := none, content := "", contentSnippet := "c", guid := "g4" }

/-- Fetch outcomes delivering the entry without identifier or link. -/
def fetches0 : List (Source × Except String (List Entry)) :=
  [(src0, Except.ok [badEntry])]

/-- Fetch outcomes delivering the entry with a link but no identifier. -/
def fetches1 : List (Source × Except String (List Entry)) :=
  [(src0, Except.ok [goodEntry])]

/-- Fetch outcomes whose aggregation body throws (untitled entry). -/
def fetches2 : List (Source × Except String (List Entry)) :=
  [(src0, Except.ok [entryNoTitle])]

/-- A concrete populated cache state. -/
def st0 : CacheState := { cachedFeed := some "old", lastUpdate := some 5 }

/-- A concrete description of 501 characters. -/
def dLong : String := String.mk (List.replicate 501 'a')

lemma mem_insertDesc {a x : Item} : ∀ {l : List Item}, a ∈ insertDesc x l ↔ a = x ∨ a ∈ l := by
  intro l
  induction l with
  | nil => simp [insertDesc]
  | cons y ys ih =>
    simp only [insertDesc]
    split
    · simp [List.mem_cons]
    · simp only [List.mem_cons, ih]
      tauto

lemma pairwise_insertDesc {x : Item} :
    ∀ {l : List Item}, l.Pairwise (fun a b => sortTS b ≤ sortTS a) →
      (insertDesc x l).Pairwise (fun a b => sortTS b ≤ sortTS a) := by
  intro l
  induction l with
  | nil => intro _; simp [insertDesc]
  | cons y ys ih =>
    intro h
    rw [List.pairwise_cons] at h
    obtain ⟨hy, hys⟩ := h
    by_cases hle : sortTS y ≤ sortTS x
    · simp only [insertDesc, if_pos hle]
      refine List.Pairwise.cons ?_ (List.Pairwise.cons hy hys)
      intro z hz
      rcases List.mem_cons.mp hz with rfl | hz2
      · exact hle
      · exact le_trans (hy z hz2) hle
    · simp only [insertDesc, if_neg hle]
      refine List.Pairwise.cons ?_ (ih hys)
      intro z hz
      rcases mem_insertDesc.mp hz with rfl | hz2
      · exact Nat.le_of_lt (Nat.lt_of_not_le hle)
      · exact hy z hz2

lemma pairwise_sortDesc : ∀ l : List Item,
    (sortDesc l).Pairwise (fun a b => sortTS b ≤ sortTS a) := by
  intro l
  induction l with
  | nil => simp [sortDesc]
  | cons x xs ih => exact pairwise_insertDesc ih

lemma mem_sortDesc {a : Item} : ∀ {l : List Item}, a ∈ sortDesc l ↔ a ∈ l := by
  intro l
  induction l with
  | nil => simp [sortDesc]
  | cons x xs ih => simp [sortDesc, mem_insertDesc, ih]

lemma dedupE_sublist : ∀ (l : List Item) (seen : List String) (u : List Item),
    dedupE l seen = Except.ok u → u.Sublist l := by
  intro l
  induction l with
  | nil =>
    intro seen u h
    simp only [dedupE] at h
    cases h
    exact List.nil_sublist _
  | cons it rest ih =>
    intro seen u h
    cases htitle : it.title with
    | none => simp [dedupE, htitle] at h
    | some t =>
      simp only [dedupE, htitle] at h
      by_cases hseen : seenHas seen (normalizeTitle t) = true
      · rw [if_pos hseen] at h
        exact (ih seen u h).cons it
      · rw [if_neg hseen] at h
        cases hrec : dedupE rest (normalizeTitle t :: seen) with
        | ok u2 =>
          rw [hrec] at h
          cases h
          exact (ih _ u2 hrec).cons₂ it
        | error e => rw [hrec] at h; cases h

lemma dedupE_inv : ∀ (l : List Item) (seen : List String) (u : List Item),
    dedupE l seen = Except.ok u →
    (∀ it ∈ u, it.title.isSome = true ∧ seenHas seen (keyStr it) = false) ∧
    u.Pairwise (fun a b => keyStr a ≠ keyStr b) := by
  intro l
  induction l with
  | nil =>
    intro seen u h
    simp only [dedupE] at h
    cases h
    exact ⟨by simp, List.Pairwise.nil⟩
  | cons it rest ih =>
    intro seen u h
    cases htitle : it.title with
    | none => simp [dedupE, htitle] at h
    | some t =>
      simp only [dedupE, htitle] at h
      by_cases hseen : seenHas seen (normalizeTitle t) = true
      · rw [if_pos hseen] at h
        exact ih seen u h
      · rw [if_neg hseen] at h
        cases hrec : dedupE rest (normalizeTitle t :: seen) with
        | error e => rw [hrec] at h; cases h
        | ok u2 =>
          rw [hrec] at h
          cases h
          obtain ⟨hmem, hpw⟩ := ih _ u2 hrec
          have hkey : keyStr it = normalizeTitle t := by
            simp [keyStr, htitle]
          have htail : ∀ j ∈ u2, j.title.isSome = true ∧
              seenHas seen (keyStr j) = false ∧ keyStr j ≠ normalizeTitle t := by
            intro j hj
            obtain ⟨hjs, hjm⟩ := hmem j hj
            simp only [seenHas, Bool.or_eq_false_iff] at hjm
            refine ⟨hjs, hjm.2, ?_⟩
            intro hc
            rw [hc] at hjm
            simp at hjm
          constructor
          · intro j hj
            rcases List.mem_cons.mp hj with rfl | hj2
            · refine ⟨by simp [htitle], ?_⟩
              rw [hkey]
              exact Bool.eq_false_iff.mpr hseen
            · exact ⟨(htail j hj2).1, (htail j hj2).2.1⟩
          · refine List.Pairwise.cons ?_ hpw
            intro j hj
            rw [hkey]
            exact fun hc => (htail j hj).2.2 hc.symm

lemma dedupE_eq_spec : ∀ (l : List Item) (seen : List String) (u : List Item),
    dedupE l seen = Except.ok u →
    u = dedupSpecOk (l.filter (fun y => !(seenHas seen (keyStr y)))) := by
  intro l
  induction l with
  | nil =>
    intro seen u h
    simp only [dedupE] at h
    cases h
    simp [dedupSpecOk]
  | cons it rest ih =>
    intro seen u h
    cases htitle : it.title with
    | none => simp [dedupE, htitle] at h
    | some t =>
      simp only [dedupE, htitle] at h
      have hkey : keyStr it = normalizeTitle t := by simp [keyStr, htitle]
      by_cases hseen : seenHas seen (normalizeTitle t) = true
      · rw [if_pos hseen] at h
        have := ih seen u h
        rw [this]
        congr 1
        rw [List.filter_cons]
        rw [hkey, hseen]
        simp
      · rw [if_neg hseen] at h
        cases hrec : dedupE rest (normalizeTitle t :: seen) with
        | error e => rw [hrec] at h; cases h
        | ok u2 =>
          rw [hrec] at h
          cases h
          have h2 := ih _ u2 hrec
          rw [List.filter_cons, hkey, Bool.eq_false_iff.mpr hseen]
          simp only [Bool.not_false, if_true, if_pos]
          rw [show ∀ (x : Item) (xs : List Item), dedupSpecOk (x :: xs) =
                x :: dedupSpecOk (xs.filter (fun y => !(keyStr y == keyStr x)))
              from fun x xs => by rw [dedupSpecOk], List.filter_filter]
          congr 1
          rw [h2]
          congr 1
          apply List.filter_congr
          intro y _
          simp only [seenHas, hkey, Bool.not_or]

lemma combinedRSSFeed_eq (fetches : List (Source × Except String (List Entry))) :
    combinedRSSFeed fetches =
      match dedupE (sortDesc (allItems fetches)) [] with
      | Except.ok u => u.take 100
      | Except.error _ => [] := by
  unfold combinedRSSFeed combinedRSSFeedE bodyE
  cases dedupE (sortDesc (allItems fetches)) [] <;> rfl

lemma allItems_append : ∀ (a b : List (Source × Except String (List Entry))),
    allItems (a ++ b) = allItems a ++ allItems b := by
  intro a b
  induction a with
  | nil => rfl
  | cons p rest ih => simp [allItems, ih]

lemma combinedRSSFeed_congr {f1 f2 : List (Source × Except String (List Entry))}
    (h : allItems f1 = allItems f2) : combinedRSSFeed f1 = combinedRSSFeed f2 := by
  rw [combinedRSSFeed_eq, combinedRSSFeed_eq, h]

lemma mem_allItems {it : Item} : ∀ {f : List (Source × Except String (List Entry))},
    it ∈ allItems f → ∃ p ∈ f, it ∈ fetchFeed p.1 p.2 := by
  intro f
  induction f with
  | nil => intro h; simp [allItems] at h
  | cons p rest ih =>
    intro h
    rcases List.mem_append.mp h with h1 | h2
    · exact ⟨p, List.mem_cons_self p rest, h1⟩
    · obtain ⟨q, hq, hqit⟩ := ih h2
      exact ⟨q, List.mem_cons_of_mem p hq, hqit⟩

lemma mem_combinedRSSFeed {it : Item} {fetches : List (Source × Except String (List Entry))}
    (h : it ∈ combinedRSSFeed fetches) :
    ∃ p ∈ fetches, ∃ entries, p.2 = Except.ok entries ∧ ∃ e ∈ entries, it = mkItem p.1 e := by
  rw [combinedRSSFeed_eq] at h
  cases hd : dedupE (sortDesc (allItems fetches)) [] with
  | error e => rw [hd] at h; simp at h
  | ok u =>
    rw [hd] at h
    have h2 : it ∈ allItems fetches := by
      have hu : it ∈ u := (List.take_sublist 100 u).subset h
      have hs : it ∈ sortDesc (allItems fetches) := (dedupE_sublist _ _ _ hd).subset hu
      exact mem_sortDesc.mp hs
    obtain ⟨p, hp, hpit⟩ := mem_allItems h2
    cases hout : p.2 with
    | error e => rw [hout] at hpit; simp [fetchFeed] at hpit
    | ok entries =>
      rw [hout] at hpit
      simp only [fetchFeed, List.mem_map] at hpit
      obtain ⟨e, he, rfl⟩ := hpit
      exact ⟨p, hp, entries, hout, e, he, rfl⟩

/-- C5: for every input (any number of sources and any number of fetched
items), the item list returned by an aggregation run has length at most
100 (src/server.js line 107). -/
theorem combinedRSSFeed_cap :
    ∀ fetches : List (Source × Except String (List Entry)),
      (combinedRSSFeed fetches).length ≤ 100 := by
  intro fetches
  rw [combinedRSSFeed_eq]
  cases dedupE (sortDesc (allItems fetches)) [] with
  | ok u => simp [List.length_take]
  | error e => simp

/-- C6: in every aggregation result, each adjacent pair of items is
ordered by non-increasing publish timestamp, an absent timestamp counting
as epoch 0 (src/server.js lines 87-92). -/
theorem combinedRSSFeed_sorted :
    ∀ fetches : List (Source × Except String (List Entry)),
      List.Chain' (fun a b => sortTS b ≤ sortTS a) (combinedRSSFeed fetches) := by
  intro fetches
  rw [combinedRSSFeed_eq]
  cases hd : dedupE (sortDesc (allItems fetches)) [] with
  | error e => simp
  | ok u =>
    have hp := pairwise_sortDesc (allItems fetches)
    have hsub : (u.take 100).Sublist (sortDesc (allItems fetches)) :=
      (List.take_sublist 100 u).trans (dedupE_sublist _ _ _ hd)
    exact (hp.sublist hsub).chain'

/-- C4: a failing source contributes nothing — removing it from the fetch
list leaves the aggregation result unchanged, and when every source fails
the run returns the empty list, not an error (src/server.js lines 48-66,
74-85). -/
theorem combinedRSSFeed_partial_failure :
    (∀ (pre post : List (Source × Except String (List Entry))) (src : Source) (e : String),
      combinedRSSFeed (pre ++ (src, Except.error e) :: post) = combinedRSSFeed (pre ++ post)) ∧
    (∀ (srcs : List Source) (e : String),
      combinedRSSFeed (srcs.map (fun s => (s, (Except.error e : Except String (List Entry))))) = []) := by
  constructor
  · intro pre post src e
    apply combinedRSSFeed_congr
    rw [show pre ++ (src, (Except.error e : Except String (List Entry))) :: post =
        pre ++ [(src, (Except.error e : Except String (List Entry)))] ++ post by simp]
    rw [allItems_append, allItems_append, allItems_append]
    simp [allItems, fetchFeed]
  · intro srcs e
    have hnil : allItems (srcs.map (fun s => (s, (Except.error e : Except String (List Entry))))) = [] := by
      induction srcs with
      | nil => rfl
      | cons s rest ih => simp [allItems, fetchFeed, ih]
    rw [combinedRSSFeed_eq, hnil]
    simp [sortDesc, dedupE]

set_option maxRecDepth 20000

/-- C1 counterexample: the claimed key (remove every character that is not
a letter, digit, or whitespace) differs from the code's key on a title
containing an underscore — the regex class `\w` keeps underscores. -/
theorem normalizeTitle_keeps_underscore :
    normalizeTitle "a_b" ≠ specKeyClaimed "a_b" := by decide

/-- C1 (amended): the dedup key is the lower-cased title with every
character that is not a letter, digit, underscore, or whitespace removed;
the run keeps only the first item of each key in the sorted sequence, and
all pairs of items in the returned list have distinct keys. -/
theorem dedup_key_first_occurrence :
    (∀ t, normalizeTitle t = specKeyAmended t) ∧
    (∀ (l : List Item) (u : List Item), dedupE l [] = Except.ok u → u = dedupSpecOk l) ∧
    (∀ fetches : List (Source × Except String (List Entry)),
      (combinedRSSFeed fetches).Pairwise (fun a b => keyStr a ≠ keyStr b)) := by
  refine ⟨?_, ?_, ?_⟩
  · intro t
    unfold normalizeTitle specKeyAmended
    congr 1
  · intro l u h
    have h2 := dedupE_eq_spec l [] u h
    rw [h2]
    congr 1
    have : ∀ y : Item, (!(seenHas [] (keyStr y))) = true := by
      intro y; rfl
    simp [this]
  · intro fetches
    rw [combinedRSSFeed_eq]
    cases hd : dedupE (sortDesc (allItems fetches)) [] with
    | error e => simp
    | ok u =>
      exact (dedupE_inv _ _ _ hd).2.sublist (List.take_sublist 100 u)

/-- Witness for C1 (amended) at a concrete duplicate pair. -/
theorem dedup_key_first_occurrence_witness :
    dedupE [itA, itB] [] = Except.ok [itA] ∧ [itA] = dedupSpecOk [itA, itB] :=
  ⟨rfl, dedup_key_first_occurrence.2.1 [itA, itB] [itA] rfl⟩

/-- C9 counterexample: an upstream entry with neither identifier nor link
yields an item in the aggregation result whose guid is empty. -/
theorem aggregated_guid_empty :
    mkItem src0 badEntry ∈ combinedRSSFeed fetches0 ∧
      (mkItem src0 badEntry).guid = "" := by
  constructor
  · decide
  · decide

/-- C9 (amended): the guid of every fetched item is the upstream entry's
identifier when that is non-empty, else the entry's link; hence every item
of an aggregation run whose entries all carry a non-empty identifier or a
non-empty link has a non-empty guid. -/
theorem guid_defaults_to_link :
    (∀ (src : Source) (e : Entry),
      (mkItem src e).guid = if e.guid ≠ "" then e.guid else e.link) ∧
    (∀ fetches : List (Source × Except String (List Entry)),
      (∀ p ∈ fetches, ∀ entries, p.2 = Except.ok entries →
        ∀ e ∈ entries, e.guid ≠ "" ∨ e.link ≠ "") →
      ∀ it ∈ combinedRSSFeed fetches, it.guid ≠ "") := by
  constructor
  · intro src e; rfl
  · intro fetches hyp it hit
    obtain ⟨p, hp, entries, hout, e, he, rfl⟩ := mem_combinedRSSFeed hit
    have hge := hyp p hp entries hout e he
    show (if e.guid ≠ "" then e.guid else e.link) ≠ ""
    by_cases hg : e.guid = ""
    · rw [if_neg (by simp [hg])]
      rcases hge with hge | hge
      · exact absurd hg hge
      · exact hge
    · rw [if_pos hg]
      exact hg

/-- Witness for C9 (amended) at a concrete entry with an empty identifier
but a non-empty link. -/
theorem guid_defaults_to_link_witness :
    mkItem src0 goodEntry ∈ combinedRSSFeed fetches1 ∧
      (mkItem src0 goodEntry).guid ≠ "" :=
  ⟨by decide,
   guid_defaults_to_link.2 fetches1
     (by
       intro p hp entries he e hee
       simp only [fetches1, List.mem_singleton] at hp
       subst hp
       simp only at he
       injection he with h2
       subst h2
       simp only [List.mem_singleton] at hee
       subst hee
       right
       decide)
     (mkItem src0 goodEntry) (by decide)⟩

lemma replaceAll_append (c : Char) (r : List Char) :
    ∀ (a b : List Char), replaceAll c r (a ++ b) = replaceAll c r a ++ replaceAll c r b := by
  intro a b
  induction a with
  | nil => rfl
  | cons x xs ih => simp [replaceAll, ih]

lemma escChars_cons (x : Char) (l : List Char) :
    escChars (x :: l) = escSeqL x ++ escChars l := by
  have hstep : replaceAll '&' "&amp;".data (x :: l) =
      (if x = '&' then "&amp;".data else [x]) ++ replaceAll '&' "&amp;".data l := by
    simp [replaceAll]
  unfold escChars
  rw [hstep, replaceAll_append, replaceAll_append, replaceAll_append, replaceAll_append]
  congr 1
  by_cases h1 : x = '&'
  · subst h1; rfl
  · rw [if_neg h1]
    by_cases h2 : x = '<'
    · subst h2; rfl
    · by_cases h3 : x = '>'
      · subst h3; rfl
      · by_cases h4 : x = '"'
        · subst h4; rfl
        · by_cases h5 : x = '\''
          · subst h5; rfl
          · simp [replaceAll, escSeqL, h1, h2, h3, h4, h5]

lemma escChars_eq_escSpec : ∀ l : List Char, escChars l = escSpec l := by
  intro l
  induction l with
  | nil => rfl
  | cons x xs ih => rw [escChars_cons, escSpec, ih]

lemma escapeXML_eq_escSpec (s : String) : escapeXML s = String.mk (escSpec s.data) := by
  unfold escapeXML
  by_cases h : s = ""
  · subst h; rfl
  · rw [if_neg h, escChars_eq_escSpec]

/-- A character that is not one of the four raw markup characters that
never survive escaping. -/
def notReserved (c : Char) : Bool := !(c == '<' || c == '>' || c == '"' || c == '\'')

lemma escSeqL_all (c : Char) : (escSeqL c).all notReserved = true := by
  by_cases h1 : c = '&'
  · subst h1; decide
  · by_cases h2 : c = '<'
    · subst h2; decide
    · by_cases h3 : c = '>'
      · subst h3; decide
      · by_cases h4 : c = '"'
        · subst h4; decide
        · by_cases h5 : c = '\''
          · subst h5; decide
          · simp [escSeqL, notReserved, h1, h2, h3, h4, h5]

lemma escSpec_all : ∀ l : List Char, (escSpec l).all notReserved = true := by
  intro l
  induction l with
  | nil => rfl
  | cons x xs ih =>
    rw [escSpec, List.all_append, ih, escSeqL_all]
    rfl

/-- C7: `escapeXML` replaces every occurrence of the five reserved markup
characters by its escape sequence (character-wise), so its output — and
hence every escaped free-text field embedded by `generateRSSXML` —
contains no raw `<`, `>`, double quote, or single quote (src/server.js
lines 119-133, 150-158). -/
theorem escapeXML_escapes :
    ∀ s : String,
      escapeXML s = String.mk (escSpec s.data) ∧
      ((escapeXML s).data.all notReserved) = true := by
  intro s
  refine ⟨escapeXML_eq_escSpec s, ?_⟩
  rw [escapeXML_eq_escSpec]
  exact escSpec_all s.data

/-- C8: a description longer than 500 characters is truncated to its first
500 characters, the ellipsis marker is appended, and only then is the
result escaped; a description of at most 500 characters is rendered in
full with no marker (src/server.js line 121). -/
theorem renderDescription_truncates :
    ∀ d : String,
      (500 < d.length →
        renderDescription d = escapeXML (String.mk (d.data.take 500) ++ "...")) ∧
      (d.length ≤ 500 → renderDescription d = escapeXML d) := by
  intro d
  constructor
  · intro h
    unfold renderDescription jsSubstring
    rw [if_pos h]
  · intro h
    unfold renderDescription jsSubstring
    rw [if_neg (by omega : ¬ d.length > 500)]
    have hlen : d.data.length ≤ 500 := h
    rw [List.take_of_length_le hlen]
    congr 1
    show String.mk d.data ++ "" = d
    apply String.ext
    simp [String.append]

/-- Witness for C8 at a 501-character description and a short one. -/
theorem renderDescription_truncates_witness :
    (500 < dLong.length ∧
      renderDescription dLong = escapeXML (String.mk (dLong.data.take 500) ++ "...")) ∧
    (("abc" : String).length ≤ 500 ∧ renderDescription "abc" = escapeXML "abc") :=
  ⟨⟨by decide, (renderDescription_truncates dLong).1 (by decide)⟩,
   ⟨by decide, (renderDescription_truncates "abc").2 (by decide)⟩⟩

/-- C2 counterexample: with a populated cache, a refresh whose aggregation
body throws (an untitled entry) still overwrites both the cached XML and
the timestamp — the previous entry is not preserved. -/
theorem failed_refresh_overwrites_cache :
    bodyE fetches2 = Except.error "TypeError" ∧
    (updateCache toUTCString 10 fetches2 st0).cachedFeed ≠ st0.cachedFeed ∧
    (updateCache toUTCString 10 fetches2 st0).lastUpdate ≠ st0.lastUpdate :=
  ⟨rfl, by decide, by decide⟩

/-- C2 (amended): a refresh whose aggregation body throws still completes:
the error is converted to an empty item list inside `combinedRSSFeed`, and
`updateCache` replaces the cache entry with the rendering of the empty
feed and the refresh time.  No refresh — first or later — leaves the
previous entry or an empty cache in place (src/server.js lines 109-112,
161-167). -/
theorem updateCache_replaces_on_error :
    ∀ (fmt : Nat → String) (now : Nat)
      (fetches : List (Source × Except String (List Entry)))
      (st : CacheState) (e : String),
      bodyE fetches = Except.error e →
      updateCache fmt now fetches st =
        { cachedFeed := some (generateRSSXML fmt now []), lastUpdate := some now } := by
  intro fmt now fetches st e h
  unfold updateCache combinedRSSFeed combinedRSSFeedE
  rw [h]

/-- Witness for C2 (amended) at the concrete failing fetch outcome. -/
theorem updateCache_replaces_on_error_witness :
    bodyE fetches2 = Except.error "TypeError" ∧
    updateCache toUTCString 10 fetches2 st0 =
      { cachedFeed := some (generateRSSXML toUTCString 10 []), lastUpdate := some 10 } :=
  ⟨rfl, updateCache_replaces_on_error toUTCString 10 fetches2 st0 "TypeError" rfl⟩

/-- C3: the `GET /rss` read path refreshes exactly once — replacing the
cache entry before answering — when the cache is absent or older than
`CACHE_DURATION`, and otherwise answers the cached XML unchanged with no
refresh (src/server.js lines 43-45, 182-195). -/
theorem rssHandler_cache_policy :
    ∀ (fmt : Nat → String) (now : Nat)
      (fetches : List (Source × Except String (List Entry))),
      (∀ xml lu, xml ≠ "" → now - lu ≤ CACHE_DURATION →
        rssHandler fmt now fetches ⟨some xml, some lu⟩ =
          (xml, ⟨some xml, some lu⟩, 0)) ∧
      (∀ xml lu, now - lu > CACHE_DURATION →
        rssHandler fmt now fetches ⟨some xml, some lu⟩ =
          (generateRSSXML fmt now (combinedRSSFeed fetches),
           ⟨some (generateRSSXML fmt now (combinedRSSFeed fetches)), some now⟩, 1)) ∧
      (∀ st : CacheState, st.cachedFeed = none ∨ st.lastUpdate = none →
        rssHandler fmt now fetches st =
          (generateRSSXML fmt now (combinedRSSFeed fetches),
           ⟨some (generateRSSXML fmt now (combinedRSSFeed fetches)), some now⟩, 1)) := by
  intro fmt now fetches
  refine ⟨?_, ?_, ?_⟩
  · intro xml lu hx hfresh
    have hcond : needsRefresh now ⟨some xml, some lu⟩ = false := by
      simp [needsRefresh, hx, Nat.not_lt.mpr hfresh]
    simp [rssHandler, hcond]
  · intro xml lu hstale
    have hcond : needsRefresh now ⟨some xml, some lu⟩ = true := by
      simp [needsRefresh, hstale]
    simp [rssHandler, hcond, updateCache]
  · intro st hnone
    have hcond : needsRefresh now st = true := by
      rcases hnone with h | h <;> simp [needsRefresh, h]
    simp [rssHandler, hcond, updateCache]

/-- Witness for C3 at a fresh and at a stale concrete cache state. -/
theorem rssHandler_cache_policy_witness :
    (("x" : String) ≠ "" ∧ 10 - 5 ≤ CACHE_DURATION ∧
      rssHandler toUTCString 10 [] ⟨some "x", some 5⟩ =
        ("x", ⟨some "x", some 5⟩, 0)) ∧
    (900002 - 1 > CACHE_DURATION ∧
      rssHandler toUTCString 900002 [] ⟨some "x", some 1⟩ =
        (generateRSSXML toUTCString 900002 (combinedRSSFeed []),
         ⟨some (generateRSSXML toUTCString 900002 (combinedRSSFeed [])), some 900002⟩, 1)) :=
  ⟨⟨by decide, by decide,
    (rssHandler_cache_policy toUTCString 10 []).1 "x" 5 (by decide) (by decide)⟩,
   ⟨by decide,
    (rssHandler_cache_policy toUTCString 900002 []).2.1 "x" 1 (by decide)⟩⟩

/-- C10: the aggregation is total at its boundary — `combinedRSSFeed`
never rejects, so the HTTP 500 branch of `GET /json` is unreachable via
aggregation failure (src/server.js lines 69-113, 197-211). -/
theorem combinedRSSFeed_total :
    (∀ fetches : List (Source × Except String (List Entry)),
      ∃ l : List Item, combinedRSSFeedE fetches = Except.ok l) ∧
    (∀ (nowStr : String) (fetches : List (Source × Except String (List Entry))),
      jsonHandler nowStr fetches =
        Except.ok
          { title := "Financial News Hub - Combined Feed"
            description := "Combined feed from top financial news sources"
            items := combinedRSSFeed fetches
            lastUpdated := nowStr
            sources := RSS_SOURCES.map (fun s => s.name) }) := by
  constructor
  · intro fetches
    unfold combinedRSSFeedE
    cases bodyE fetches with
    | ok l => exact ⟨l, rfl⟩
    | error e => exact ⟨[], rfl⟩
  · intro nowStr fetches
    unfold jsonHandler combinedRSSFeed combinedRSSFeedE
    cases bodyE fetches <;> rfl
